import Mathlib

/-!
Shallow embedding of the mudcrab network front-end (Telnet codec, Telnet
option-negotiation FSM, connection accept stage, health-check stage) and
proofs checking the specification claims against it.

Conventions of the embedding:
* machine bytes and Unicode code points are `Nat` (bytes produced by the
  decode path are < 256 by construction);
* Rust `Vec<u8>` / `BytesMut` / `String` become `List Nat`;
* `HashMap` becomes an association list (`lookupA` / `updateA`), which keeps
  lookup/update semantics; iteration order, unspecified for Rust's `HashMap`,
  is the table's insertion order here;
* `HashSet<u8>` becomes a duplicate-free `List Nat` (`setInsert` /
  `setErase`); the embedded code never iterates a hash set;
* code that can panic (out-of-bounds indexing, out-of-range slicing) returns
  an `Option` / a dedicated `fault` constructor instead of faulting.

The module `src/net/telnet/codes.rs` is declared by the source but is not
among the provided files; its constants are the standard RFC 854 / community
Telnet option codes, and the values used by the claims are pinned by the
spec (IAC = 0xFF, LF = 0x0A, MTTS/TTYPE = 24, NAWS = 31).
-/

set_option linter.unusedVariables false

namespace Mudcrab

namespace codes

def IAC : Nat := 255

def DONT : Nat := 254

def DO : Nat := 253

def WONT : Nat := 252

def WILL : Nat := 251

def SB : Nat := 250

def SE : Nat := 240

def SGA : Nat := 3

def MTTS : Nat := 24

def TELOPT_EOR : Nat := 25

def NAWS : Nat := 31

def LINEMODE : Nat := 34

def MSDP : Nat := 69

def MSSP : Nat := 70

def MXP : Nat := 91

def GMCP : Nat := 201

def LF : Nat := 10

end codes

/-- Code points of a Lean string literal, used to write the byte/text
constants of the source readably. -/
def str (s : String) : List Nat := s.data.map Char.toNat

/-- Position of the first occurrence of byte `t` (Rust
`iter().position(|b| b == &t)`). -/
def findByte (t : Nat) : List Nat → Option Nat
  | [] => none
  | a :: rest => if a = t then some 0 else (findByte t rest).map (· + 1)

/-- Position of the first adjacent `IAC SE` pair (Rust
`windows(2).position(|b| b[0] == IAC && b[1] == SE)`). -/
def findIacSe : List Nat → Option Nat
  | a :: b :: rest =>
    if a = codes.IAC ∧ b = codes.SE then some 0
    else (findIacSe (b :: rest)).map (· + 1)
  | _ => none

/-- Unicode white space (`char::is_whitespace`), restricted to the code
points of the Unicode `White_Space` property. -/
def isWS (c : Nat) : Bool :=
  c ∈ [9, 10, 11, 12, 13, 32, 133, 160, 5760, 8192, 8193, 8194, 8195, 8196,
       8197, 8198, 8199, 8200, 8201, 8202, 8232, 8233, 8239, 8287, 12288]

/-- Rust `str::trim`: drop leading and trailing whitespace. -/
def trimL (s : List Nat) : List Nat :=
  ((s.dropWhile isWS).reverse.dropWhile isWS).reverse

/-- Uppercase one code point. Agrees with Rust `to_uppercase` on ASCII,
which covers every text evaluated in this development. -/
def upperChar (c : Nat) : Nat := if 97 ≤ c ∧ c ≤ 122 then c - 32 else c

/-- Rust `str::to_uppercase` (ASCII fragment). -/
def toUpperL (s : List Nat) : List Nat := s.map upperChar

/-- Rust `str::starts_with`. -/
def begins (p s : List Nat) : Bool := s.take p.length = p

/-- Rust `str::ends_with`. -/
def finals (p s : List Nat) : Bool := s.drop (s.length - p.length) = p

/-- Rust `str::splitn(n, " ")`: at most `n` pieces, the last piece keeps the
remaining separators. -/
def splitnSpace : Nat → List Nat → List (List Nat)
  | 0, _ => []
  | 1, s => [s]
  | n + 2, s =>
    match findByte 32 s with
    | some i => s.take i :: splitnSpace (n + 1) (s.drop (i + 1))
    | none => [s]

/-- Value of a non-empty all-digit code point list. -/
def digitsVal : List Nat → Option Nat
  | [] => none
  | l =>
    if l.all (fun c => 48 ≤ c ∧ c ≤ 57) then
      some (l.foldl (fun acc c => acc * 10 + (c - 48)) 0)
    else none

/-- Rust `str::parse::<usize>`: optional leading `+`, then decimal digits;
overflow past `usize::MAX` is an error. -/
def parseUsize (l : List Nat) : Option Nat :=
  let core := match l with
    | 43 :: rest => digitsVal rest
    | _ => digitsVal l
  match core with
  | some v => if v < 2 ^ 64 then some v else none
  | none => none

/-- A UTF-8 continuation byte. -/
def isCont (b : Nat) : Bool := decide (128 ≤ b ∧ b ≤ 191)

/-- Rust `String::from_utf8`: full standard UTF-8 validation/decoding,
returning the code points, or `none` on invalid input. -/
def utf8Decode : List Nat → Option (List Nat)
  | [] => some []
  | b :: rest =>
    if b ≤ 0x7F then (utf8Decode rest).map (fun t => b :: t)
    else if 0xC2 ≤ b ∧ b ≤ 0xDF then
      match rest with
      | b1 :: r1 =>
        if isCont b1 then
          (utf8Decode r1).map (fun t => ((b - 0xC0) * 0x40 + (b1 - 0x80)) :: t)
        else none
      | [] => none
    else if 0xE0 ≤ b ∧ b ≤ 0xEF then
      match rest with
      | b1 :: b2 :: r2 =>
        let okB1 : Bool :=
          if b = 0xE0 then decide (0xA0 ≤ b1 ∧ b1 ≤ 0xBF)
          else if b = 0xED then decide (0x80 ≤ b1 ∧ b1 ≤ 0x9F)
          else isCont b1
        if okB1 && isCont b2 then
          (utf8Decode r2).map
            (fun t => ((b - 0xE0) * 0x1000 + (b1 - 0x80) * 0x40 + (b2 - 0x80)) :: t)
        else none
      | _ => none
    else if 0xF0 ≤ b ∧ b ≤ 0xF4 then
      match rest with
      | b1 :: b2 :: b3 :: r3 =>
        let okB1 : Bool :=
          if b = 0xF0 then decide (0x90 ≤ b1 ∧ b1 ≤ 0xBF)
          else if b = 0xF4 then decide (0x80 ≤ b1 ∧ b1 ≤ 0x8F)
          else isCont b1
        if okB1 && isCont b2 && isCont b3 then
          (utf8Decode r3).map
            (fun t => ((b - 0xF0) * 0x40000 + (b1 - 0x80) * 0x1000 +
                       (b2 - 0x80) * 0x40 + (b3 - 0x80)) :: t)
        else none
      | _ => none
    else none

/-- `BytesMut::get_u16`: big-endian 16-bit read of the first two bytes. -/
def getU16 (l : List Nat) : Nat := 256 * l.getD 0 0 + l.getD 1 0

/-- `TelnetEvent` (src/net/telnet/mod.rs). -/
inductive TelnetEvent
  | Line (s : List Nat)
  | Command (c : Nat)
  | LocalEnable (o : Nat)
  | LocalDisable (o : Nat)
  | RemoteEnable (o : Nat)
  | RemoteDisable (o : Nat)
  | LocalHandshake (o : Nat)
  | RemoteHandshake (o : Nat)
  | SubData (o : Nat) (d : List Nat)
deriving DecidableEq

/-- `TelnetMessage` (src/net/telnet/mod.rs). -/
inductive TelnetMessage
  | Data (v : List Nat)
  | IAC (code : Nat)
  | Negotiate (code op : Nat)
  | SubNegotiate (code : Nat) (data : List Nat)
deriving DecidableEq

/-- `TelnetMessage::to_vec`. -/
def TelnetMessage.to_vec : TelnetMessage → List Nat
  | .Data v => v
  | .IAC code => [codes.IAC, code]
  | .Negotiate code op => [codes.IAC, code, op]
  | .SubNegotiate code data =>
    [codes.IAC, codes.SB, code] ++ data ++ [codes.IAC, codes.SE]

/-- Outcome of `TelnetMessage::from_bytes`: a decoded message with its
consumed length, `incomplete` for Rust's `None`, or `fault` where the Rust
code panics (out-of-bounds index / reversed slice range). -/
inductive DecodeResult
  | fault
  | incomplete
  | msg (m : TelnetMessage) (n : Nat)
deriving DecidableEq

/-- `TelnetMessage::from_bytes`. The `fault` branches mark the two places
the source indexes/slices without a sufficient bound: `src[1]` when the
buffer is the single byte `IAC`, and `src[3..ipos]` when the first
`IAC SE` window starts before index 3. -/
def TelnetMessage.from_bytes (src : List Nat) : DecodeResult :=
  match src with
  | [] => .incomplete
  | b0 :: rest =>
    if b0 = codes.IAC then
      match rest with
      | [] => .fault
      | b1 :: rest2 =>
        if b1 = codes.IAC then .msg (.Data [codes.IAC]) 2
        else if b1 = codes.WILL ∨ b1 = codes.WONT ∨ b1 = codes.DO ∨ b1 = codes.DONT then
          match rest2 with
          | b2 :: _ => .msg (.Negotiate b1 b2) 3
          | [] => .incomplete
        else if b1 = codes.SB then
          if src.length ≤ 4 then .incomplete
          else
            match rest2 with
            | b2 :: rest3 =>
              match findIacSe src with
              | some ipos =>
                if ipos < 3 then .fault
                else .msg (.SubNegotiate b2 (rest3.take (ipos - 3))) (ipos + 2)
              | none => .incomplete
            | [] => .incomplete
        else .msg (.IAC b1) 2
    else
      match findByte codes.IAC src with
      | some ipos => .msg (.Data (src.take ipos)) ipos
      | none => .msg (.Data src) src.length

example : TelnetMessage.from_bytes [65, 255, 255, 66, 10] =
    .msg (.Data [65]) 1 := by decide

example : TelnetMessage.from_bytes [255, 255, 66] =
    .msg (.Data [255]) 2 := by decide

example : TelnetMessage.from_bytes [255, 250, 24, 0, 65, 255, 240] =
    .msg (.SubNegotiate 24 [0, 65]) 7 := by decide

example : utf8Decode [65, 255, 66] = none := by decide

example : utf8Decode (str "MUDLET") = some (str "MUDLET") := by decide

/-- `Protocol` (src/net/mod.rs). -/
inductive Protocol
  | Telnet
  | WebSocket
  | SSH
deriving DecidableEq

/-- `TelnetOptionPerspective` (src/net/telnet/mod.rs). The source comment:
"Negotiating is true if WE have sent a request." -/
structure TelnetOptionPerspective where
  enabled : Bool := false
  negotiating : Bool := false
deriving DecidableEq

/-- `TelnetOptionState`. The source field `local` is a Lean keyword and is
rendered `loc` throughout. -/
structure TelnetOptionState where
  remote : TelnetOptionPerspective := {}
  loc : TelnetOptionPerspective := {}
deriving DecidableEq

/-- `TelnetOption` (static per-option policy). -/
structure TelnetOption where
  allow_local : Bool := false
  allow_remote : Bool := false
  start_local : Bool := false
  start_remote : Bool := false
deriving DecidableEq

/-- `HashSet::insert`: duplicate-free-list model of `HashSet<u8>` (the
embedded code never iterates a hash set, so element order is unused). -/
def setInsert (a : Nat) (s : List Nat) : List Nat := if a ∈ s then s else a :: s

/-- `HashSet::remove`. -/
def setErase (a : Nat) (s : List Nat) : List Nat := s.filter (fun b => b ≠ a)

/-- `TelnetHandshakes` (`local` rendered `loc`); each `HashSet<u8>` is a
duplicate-free list. -/
structure TelnetHandshakes where
  loc : List Nat := []
  remote : List Nat := []
  mtts : List Nat := []
deriving DecidableEq

/-- `TelnetHandshakes::len`. -/
def TelnetHandshakes.len (h : TelnetHandshakes) : Nat :=
  h.loc.length + h.remote.length + h.mtts.length

/-- `TelnetHandshakes::is_empty`. -/
def TelnetHandshakes.is_empty (h : TelnetHandshakes) : Bool := h.len = 0

/-- Association-list rendering of `HashMap<u8, V>` lookup. -/
def lookupA {α : Type} : List (Nat × α) → Nat → Option α
  | [], _ => none
  | (k, v) :: rest, key => if k = key then some v else lookupA rest key

/-- Update the value stored at an existing key (the effect of mutating
through `get_mut`). -/
def updateA {α : Type} : List (Nat × α) → Nat → α → List (Nat × α)
  | [], _, _ => []
  | (k, v) :: rest, key, nv =>
    if k = key then (k, nv) :: rest else (k, v) :: updateA rest key nv

abbrev OptionTable := List (Nat × TelnetOption)

/-- `TelnetProtocol` (src/net/telnet/mod.rs). `mtts_last` holds the decoded
uppercased text as code points. -/
structure TelnetProtocol where
  op_state : List (Nat × TelnetOptionState)
  telnet_options : OptionTable
  handshakes_left : TelnetHandshakes := {}
  app_buffer : List Nat := []
  mtts_last : Option (List Nat) := none
deriving DecidableEq

/-- `TelnetProtocol::new`: option states default for every policy key. -/
def TelnetProtocol.new (telnet_options : OptionTable) : TelnetProtocol :=
  { op_state := telnet_options.map (fun kv => (kv.1, ({} : TelnetOptionState)))
    telnet_options := telnet_options }

/-- `TelnetOptions::default` (src/engine/resources.rs), in source insertion
order; the commented-out MXP/MCCP2/MCCP3 entries are omitted as in the
source. -/
def defaultTelnetOptions : OptionTable :=
  [ (codes.SGA,        { allow_local := true,  allow_remote := true,  start_local := true,  start_remote := false }),
    (codes.NAWS,       { allow_local := false, allow_remote := true,  start_local := false, start_remote := true  }),
    (codes.MTTS,       { allow_local := false, allow_remote := true,  start_local := false, start_remote := true  }),
    (codes.MSSP,       { allow_local := true,  allow_remote := true,  start_local := true,  start_remote := false }),
    (codes.GMCP,       { allow_local := true,  allow_remote := true,  start_local := true,  start_remote := false }),
    (codes.MSDP,       { allow_local := true,  allow_remote := true,  start_local := true,  start_remote := false }),
    (codes.LINEMODE,   { allow_local := false, allow_remote := true,  start_local := false, start_remote := true  }),
    (codes.TELOPT_EOR, { allow_local := true,  allow_remote := true,  start_local := true,  start_remote := false }) ]

/-- `ProtocolCapabilities` (src/net/mod.rs). `color` (an `Option` over the
absent `mudstring` module's `ColorSystem`) is kept abstract as an
`Option Nat`; the FSM additionally writes `ansi`, `xterm256` and
`truecolor`, which are included here as the FSM uses them. -/
structure ProtocolCapabilities where
  protocol : Protocol := .Telnet
  client_name : List Nat := str "UNKNOWN"
  client_version : List Nat := str "UNKNOWN"
  color : Option Nat := none
  utf8 : Bool := false
  html : Bool := false
  mxp : Bool := false
  gmcp : Bool := false
  msdp : Bool := false
  mssp : Bool := false
  mtts : Bool := false
  naws : Bool := false
  mccp2 : Bool := false
  sga : Bool := false
  linemode : Bool := false
  width : Nat := 78
  height : Nat := 24
  screen_reader : Bool := false
  vt100 : Bool := false
  mouse_tracking : Bool := false
  osc_color_palette : Bool := false
  mnes : Bool := false
  oob : Bool := false
  proxy : Bool := false
  ansi : Bool := false
  xterm256 : Bool := false
  truecolor : Bool := false
deriving DecidableEq

/-- The mutable context threaded by `&mut` through the FSM methods: the
protocol state itself, the event queue `out`, the bytes pushed through
`writer` (a `ConnectionComponent` appends them to `write_buff`), and the
capability record. -/
structure Ctx where
  proto : TelnetProtocol
  events : List TelnetEvent := []
  written : List Nat := []
  caps : ProtocolCapabilities := {}
deriving DecidableEq

/-- A fresh Telnet FSM over the default policy table, as built by
`ProtocolComponent::telnet`. -/
def freshCtx : Ctx := { proto := TelnetProtocol.new defaultTelnetOptions }

/-- `TelnetProtocol::send_data`: `writer.write_all(data)`. -/
def send_data (data : List Nat) (ctx : Ctx) : Ctx :=
  { ctx with written := ctx.written ++ data }

/-- `TelnetProtocol::send_sub`: `IAC SB op <data> IAC SE`. -/
def send_sub (op : Nat) (data : List Nat) (ctx : Ctx) : Ctx :=
  send_data ([codes.IAC, codes.SB, op] ++ data ++ [codes.IAC, codes.SE]) ctx

/-- `TelnetProtocol::start`: one `IAC WILL k` per `start_local` option and
one `IAC DO k` per `start_remote` option. The source takes `&mut self` but
performs no field write, so the protocol state is returned unchanged; the
bytes follow the policy table's order (the source iterates a `HashMap`, so
its byte order is arbitrary). -/
def TelnetProtocol.start (p : TelnetProtocol) : TelnetProtocol × List Nat :=
  let out := p.telnet_options.foldl
    (fun acc kv =>
      let acc := if kv.2.start_local then acc ++ [codes.IAC, codes.WILL, kv.1] else acc
      if kv.2.start_remote then acc ++ [codes.IAC, codes.DO, kv.1] else acc)
    []
  (p, out)

/-- `TelnetProtocol::enable_local`. -/
def enable_local (op : Nat) (ctx : Ctx) : Ctx :=
  if op = codes.SGA then { ctx with caps := { ctx.caps with sga := true } }
  else if op = codes.MXP then
    send_sub codes.MXP [] { ctx with caps := { ctx.caps with mxp := true } }
  else ctx

/-- `TelnetProtocol::enable_remote`: for MTTS, seed `handshakes_left.mtts`
with `{0, 1, 2}` and send the first `SEND` request. -/
def enable_remote (op : Nat) (ctx : Ctx) : Ctx :=
  if op = codes.NAWS then { ctx with caps := { ctx.caps with naws := true } }
  else if op = codes.MTTS then
    let p := ctx.proto
    let hs := p.handshakes_left
    let hs := { hs with mtts := setInsert 2 (setInsert 1 (setInsert 0 hs.mtts)) }
    send_sub codes.MTTS [1] { ctx with proto := { p with handshakes_left := hs } }
  else if op = codes.LINEMODE then
    { ctx with caps := { ctx.caps with linemode := true } }
  else ctx

/-- `TelnetProtocol::disable_remote`. -/
def disable_remote (op : Nat) (ctx : Ctx) : Ctx :=
  if op = codes.NAWS then
    { ctx with caps := { ctx.caps with naws := false, width := 78, height := 24 } }
  else if op = codes.MTTS then
    { ctx with
      caps := { ctx.caps with mtts := false }
      proto := { ctx.proto with handshakes_left :=
        { ctx.proto.handshakes_left with mtts := [] } } }
  else if op = codes.LINEMODE then
    { ctx with caps := { ctx.caps with linemode := false } }
  else ctx

/-- `TelnetProtocol::disable_local`. -/
def disable_local (op : Nat) (ctx : Ctx) : Ctx :=
  if op = codes.SGA then { ctx with caps := { ctx.caps with sga := false } }
  else if op = codes.MXP then { ctx with caps := { ctx.caps with mxp := false } }
  else ctx

/-- `TelnetProtocol::receive_negotiate`. The first component computes the
per-option state update together with the source's local flags
`(respond, handshake_local, handshake_remote, enable_local, disable_local,
enable_remote, disable_remote)`; the flags are then applied in the source's
order. -/
def receive_negotiate (command op : Nat) (ctx : Ctx) : Ctx :=
  match lookupA ctx.proto.op_state op with
  | some state =>
    let r : TelnetOptionState × Nat × Nat × Nat × Bool × Bool × Bool × Bool :=
      if command = codes.WILL then
        if ¬ state.remote.enabled then
          let respond := if state.remote.negotiating then 0 else codes.DO
          ({ state with remote := { enabled := true, negotiating := false } },
            respond, 0, op, false, false, true, false)
        else (state, 0, 0, 0, false, false, false, false)
      else if command = codes.WONT then
        let hsr := if state.remote.negotiating then op else 0
        let disR := state.remote.enabled
        ({ state with remote := { enabled := false, negotiating := false } },
          0, 0, hsr, false, false, false, disR)
      else if command = codes.DO then
        if ¬ state.loc.enabled then
          let respond := if state.loc.negotiating then 0 else codes.WILL
          ({ state with loc := { enabled := true, negotiating := false } },
            respond, op, 0, true, false, false, false)
        else (state, 0, 0, 0, false, false, false, false)
      else if command = codes.DONT then
        let hsl := if state.loc.negotiating then op else 0
        let disL := state.loc.enabled
        ({ state with loc := { enabled := false, negotiating := false } },
          0, hsl, 0, false, disL, false, false)
      else (state, 0, 0, 0, false, false, false, false)
    let (state', respond, hsL, hsR, enL, disL, enR, disR) := r
    let ctx := { ctx with proto :=
      { ctx.proto with op_state := updateA ctx.proto.op_state op state' } }
    let ctx := if respond > 0 then send_data [codes.IAC, respond, op] ctx else ctx
    let ctx := if hsL > 0 then
      { ctx with events := ctx.events ++ [.LocalHandshake op] } else ctx
    let ctx := if hsR > 0 then
      { ctx with events := ctx.events ++ [.RemoteHandshake op] } else ctx
    let ctx := if enL then enable_local op ctx else ctx
    let ctx := if disL then disable_local op ctx else ctx
    let ctx := if enR then enable_remote op ctx else ctx
    if disR then disable_remote op ctx else ctx
  | none =>
    let respond := if command = codes.WILL then codes.DONT
      else if command = codes.DO then codes.WONT else 0
    if respond > 0 then send_data [codes.IAC, respond, op] ctx else ctx

/-- `TelnetProtocol::receive_mtts_0` (round 0: client name). The source
splits with `data.splitn(1, " ")`, which yields the single element `data`,
and then indexes `results[1]`: for any text containing a space this is an
out-of-bounds index (a panic), rendered `none` here. -/
def receive_mtts_0 (data : List Nat) (ctx : Ctx) : Option Ctx :=
  let named : Option ProtocolCapabilities :=
    if 32 ∈ data then
      match splitnSpace 1 data with
      | r0 :: r1 :: _ => some { ctx.caps with client_name := r0, client_version := r1 }
      | _ => none
    else some { ctx.caps with client_name := data }
  match named with
  | none => none
  | some caps =>
    let known := [str "ATLANTIS", str "CMUD", str "KILDCLIENT", str "MUDLET",
                  str "MUSHCLIENT", str "PUTTY", str "BEIP", str "POTATO",
                  str "TINYFUGUE"]
    let caps :=
      if caps.client_name ∈ known then { caps with xterm256 := true, ansi := true }
      else if begins (str "XTERM") caps.client_name ||
              finals (str "-256COLOR") caps.client_name then
        { caps with xterm256 := true, ansi := true }
      else caps
    some { ctx with caps := caps }

/-- `TelnetProtocol::receive_mtts_1` (round 1: terminal type). -/
def receive_mtts_1 (data : List Nat) (ctx : Ctx) : Ctx :=
  if begins (str "XTERM") data || finals (str "-256COLOR") data then
    { ctx with caps := { ctx.caps with xterm256 := true, ansi := true } }
  else ctx

/-- `TelnetProtocol::receive_mtts_2` (round 2: MTTS bitmask). Here the
source uses `splitn(2, " ")`, whose second element exists because the guard
requires a leading `"MTTS "`. -/
def receive_mtts_2 (data : List Nat) (ctx : Ctx) : Option Ctx :=
  if ¬ begins (str "MTTS ") data then some ctx
  else
    match splitnSpace 2 data with
    | _ :: value :: _ =>
      let mtts := (parseUsize value).getD 0
      if mtts = 0 then some ctx
      else
        let c := ctx.caps
        let c := if 1 &&& mtts = 1 then { c with ansi := true } else c
        let c := if 2 &&& mtts = 2 then { c with vt100 := true } else c
        let c := if 4 &&& mtts = 4 then { c with utf8 := true } else c
        let c := if 8 &&& mtts = 8 then { c with xterm256 := true } else c
        let c := if 16 &&& mtts = 16 then { c with mouse_tracking := true } else c
        let c := if 32 &&& mtts = 32 then { c with osc_color_palette := true } else c
        let c := if 64 &&& mtts = 64 then { c with screen_reader := true } else c
        let c := if 128 &&& mtts = 128 then { c with proxy := true } else c
        let c := if 256 &&& mtts = 256 then { c with truecolor := true } else c
        let c := if 512 &&& mtts = 512 then { c with mnes := true } else c
        some { ctx with caps := c }
    | _ => none

/-- `TelnetProtocol::receive_mtts`. Mirrors the source exactly, including
the round-selection bindings `hs1`, `hs2`, `hs3`, all three of which the
source sets to `0`. -/
def receive_mtts (data : List Nat) (ctx : Ctx) : Option Ctx :=
  if data.length < 2 then some ctx
  else if ctx.proto.handshakes_left.mtts = [] then some ctx
  else if data.getD 0 1 ≠ 0 then some ctx
  else
    match utf8Decode (data.drop 1) with
    | none => some ctx
    | some s =>
      let upper := toUpperL (trimL s)
      if ctx.proto.mtts_last = some upper then
        some { ctx with proto := { ctx.proto with
          handshakes_left := { ctx.proto.handshakes_left with mtts := [] } } }
      else
        let ctx := { ctx with proto := { ctx.proto with mtts_last := some upper } }
        let hs1 : Nat := 0
        let hs2 : Nat := 0
        let hs3 : Nat := 0
        if hs1 ∈ ctx.proto.handshakes_left.mtts then
          (receive_mtts_0 upper ctx).map (fun c =>
            let c := { c with proto := { c.proto with handshakes_left :=
              { c.proto.handshakes_left with
                mtts := setErase hs1 c.proto.handshakes_left.mtts } } }
            send_sub codes.MTTS [1] c)
        else if hs2 ∈ ctx.proto.handshakes_left.mtts then
          let c := receive_mtts_1 upper ctx
          let c := { c with proto := { c.proto with handshakes_left :=
            { c.proto.handshakes_left with
              mtts := setErase hs2 c.proto.handshakes_left.mtts } } }
          some (send_sub codes.MTTS [1] c)
        else if hs3 ∈ ctx.proto.handshakes_left.mtts then
          (receive_mtts_2 upper ctx).map (fun c =>
            { c with proto := { c.proto with handshakes_left :=
              { c.proto.handshakes_left with
                mtts := setErase hs3 c.proto.handshakes_left.mtts } } })
        else some ctx

/-- `TelnetProtocol::receive_naws`: payload of at least 4 bytes updates
width and height with the two big-endian u16s. -/
def receive_naws (data : List Nat) (ctx : Ctx) : Ctx :=
  if 4 ≤ data.length then
    { ctx with caps := { ctx.caps with
        width := getU16 data, height := getU16 (data.drop 2) } }
  else ctx

/-- `TelnetProtocol::receive_sub`: only options present in `op_state` are
handled; only NAWS and MTTS have handlers. -/
def receive_sub (op : Nat) (data : List Nat) (ctx : Ctx) : Option Ctx :=
  if (lookupA ctx.proto.op_state op).isNone then some ctx
  else if op = codes.NAWS then some (receive_naws data ctx)
  else if op = codes.MTTS then receive_mtts data ctx
  else some ctx

/-- Body of `receive_data`'s `while let` loop. Each iteration removes the
content through the first LF inclusive, so the loop runs exactly
`buf.count LF` times; the fuel argument carries that bound structurally. -/
def drainAux : Nat → List Nat → List TelnetEvent → List Nat × List TelnetEvent
  | 0, buf, out => (buf, out)
  | fuel + 1, buf, out =>
    match findByte codes.LF buf with
    | some ipos =>
      let cmd := buf.take ipos
      let out := match utf8Decode cmd with
        | some s => out ++ [TelnetEvent.Line (trimL s)]
        | none => out
      drainAux fuel (buf.drop (ipos + 1)) out
    | none => (buf, out)

/-- `TelnetProtocol::receive_data`: append to `app_buffer`, then split off
and emit one trimmed `Line` per LF, dropping lines that are not valid
UTF-8. -/
def receive_data (data : List Nat) (ctx : Ctx) : Ctx :=
  let buf := ctx.proto.app_buffer ++ data
  let r := drainAux (buf.count codes.LF) buf ctx.events
  { ctx with proto := { ctx.proto with app_buffer := r.1 }, events := r.2 }

/-- `TelnetProtocol::process_message` (`receive_command` has an empty
body in the source). -/
def process_message (msg : TelnetMessage) (ctx : Ctx) : Option Ctx :=
  match msg with
  | .SubNegotiate op data => receive_sub op data ctx
  | .Negotiate comm op => some (receive_negotiate comm op ctx)
  | .IAC _ => some ctx
  | .Data data => some (receive_data data ctx)

/-- Body of `ProtocolComponent::process_new_data`'s `while let` loop. Every
decoded message consumes at least one byte (`from_bytes_consumed_bound`
below), so `buf.length` iterations suffice: when the fuel runs out the
buffer is empty and the result coincides with the `incomplete` exit. A
decode fault or a faulting handler is propagated as `none`. -/
def pnd_aux : Nat → Ctx → List Nat → Option (Ctx × List Nat)
  | 0, ctx, buf => some (ctx, buf)
  | fuel + 1, ctx, buf =>
    match TelnetMessage.from_bytes buf with
    | .msg m n =>
      match process_message m ctx with
      | some ctx2 => pnd_aux fuel ctx2 (buf.drop n)
      | none => none
    | .incomplete => some (ctx, buf)
    | .fault => none

/-- `ProtocolComponent::process_new_data` over the Telnet variant: drain
`read_buff`, advancing by each consumed length; the remaining (incomplete)
bytes stay buffered. -/
def process_new_data (ctx : Ctx) (buf : List Nat) : Option (Ctx × List Nat) :=
  pnd_aux buf.length ctx buf

/-- `ConnType` (src/net/mod.rs). -/
inductive ConnType
  | Plain
  | TLS
deriving DecidableEq

/-- The tag of `TransportType`: `TCP(TcpStream)` or
`TLS(StreamOwned<ServerSession, TcpStream>)`; the socket/session payloads
carry no data relevant to the embedding. -/
inductive TransportTag
  | TCP
  | TLS
deriving DecidableEq

/-- `TransportType::is_tls`. -/
def TransportTag.is_tls : TransportTag → Bool
  | .TLS => true
  | .TCP => false

/-- `ConnectionComponent` (src/net/mod.rs), with the fields the accept
stage populates. -/
structure ConnectionComponent where
  transport : TransportTag
  protocol : Protocol
  token : Nat
  write_ready : Bool := false
  new_data : Bool := false
  read_buff : List Nat := []
  write_buff : List Nat := []
deriving DecidableEq

/-- `ConnectionComponent::new`: wrap the TCP socket in a server TLS session
iff a TLS configuration is supplied. -/
def ConnectionComponent.new (protocol : Protocol) (token : Nat)
    (tls : Option Unit) : ConnectionComponent :=
  { transport := if tls.isSome then .TLS else .TCP
    protocol := protocol
    token := token }

/-- The connection construction of `accept_new_connections`
(src/engine/systems.rs): the source passes `None` as the TLS configuration
in both arms of the `match lis.ctype`. -/
def acceptConn (ctype : ConnType) (protocol : Protocol) (token : Nat) :
    ConnectionComponent :=
  match ctype with
  | .Plain => ConnectionComponent.new protocol token none
  | .TLS => ConnectionComponent.new protocol token none

/-- `ProtocolStatus` (src/net/mod.rs). -/
inductive ProtocolStatus
  | Negotiating
  | Active
deriving DecidableEq

/-- `ProtocolOutEvent` (src/net/mod.rs); the rich-text payloads are kept as
code-point lists. -/
inductive ProtocolOutEvent
  | Line (t : List Nat)
  | OOB (cmd : List Nat)
  | Prompt (t : List Nat)
  | MSSP (pairs : List (List Nat × List Nat))
deriving DecidableEq

/-- Modelled from the spec: the body of `ProtocolComponent::health_check`
is missing from the provided sources (src/engine/systems.rs only calls it).
Spec section 4.7: for a connection in `Negotiating`, if the Telnet FSM's
`handshakes_left` is empty, transition to `Active` and enqueue the welcome
prompt; else if `now - created > 300` ms, force `Active`. The welcome
prompt's text is not determined by the sources and is a parameter. Times
are monotonic milliseconds. -/
def health_check (now created : Nat) (hs : TelnetHandshakes)
    (pstatus : ProtocolStatus) (out_events : List ProtocolOutEvent)
    (welcome : List Nat) : ProtocolStatus × List ProtocolOutEvent :=
  match pstatus with
  | .Active => (.Active, out_events)
  | .Negotiating =>
    if hs.is_empty then (.Active, out_events ++ [.Prompt welcome])
    else if 300 < now - created then (.Active, out_events)
    else (.Negotiating, out_events)

end Mudcrab

namespace Mudcrab

/-- The FSM state right after `enable_remote(MTTS)` on a fresh FSM:
`handshakes_left.mtts = {0, 1, 2}` and one `IAC SB MTTS 1 IAC SE` (SEND)
request written. -/
def mttsCtx0 : Ctx := enable_remote codes.MTTS freshCtx

/-- `mttsCtx0` after one well-formed MTTS reply with text `MUDLET`. -/
def mttsRun1 : Option Ctx := receive_mtts (0 :: str "MUDLET") mttsCtx0

/-- `mttsCtx0` after three well-formed MTTS replies with pairwise-distinct
texts `MUDLET`, `XTERM`, `MTTS 15`. -/
def mttsRun3 : Option Ctx :=
  (mttsRun1.bind (receive_mtts (0 :: str "XTERM"))).bind
    (receive_mtts (0 :: str "MTTS 15"))

/-- The inbound byte sequence `'A' IAC IAC 'B' LF` of the IAC-escape
scenario. -/
def c4Input : List Nat := [65, 255, 255, 66, codes.LF]

/-- A handshake record with the three MTTS rounds still outstanding. -/
def c8StallHs : TelnetHandshakes := { mtts := [0, 1, 2] }

end Mudcrab

namespace Mudcrab

/-- A found byte position lies inside the list. -/
theorem findByte_lt (t : Nat) : ∀ (l : List Nat) (i : Nat),
    findByte t l = some i → i < l.length := by
  intro l
  induction l with
  | nil => intro i h; simp [findByte] at h
  | cons a rest ih =>
    intro i h
    by_cases ha : a = t
    · rw [findByte, if_pos ha] at h
      obtain rfl : (0 : Nat) = i := by simpa using h
      simp
    · rw [findByte, if_neg ha] at h
      obtain ⟨j, hj, rfl⟩ : ∃ j, findByte t rest = some j ∧ j + 1 = i := by
        simpa using h
      have := ih j hj
      simp
      omega

/-- A found `IAC SE` window really is an adjacent `IAC SE` pair. -/
theorem findIacSe_spec : ∀ (l : List Nat) (i : Nat), findIacSe l = some i →
    ∃ rest, l.drop i = codes.IAC :: codes.SE :: rest
  | [], i, h => by simp [findIacSe] at h
  | [a], i, h => by simp [findIacSe] at h
  | a :: b :: t, i, h => by
    rw [findIacSe] at h
    by_cases hab : a = codes.IAC ∧ b = codes.SE
    · rw [if_pos hab] at h
      obtain rfl : (0 : Nat) = i := by simpa using h
      exact ⟨t, by simp [hab.1, hab.2]⟩
    · rw [if_neg hab] at h
      cases hj : findIacSe (b :: t) with
      | none => rw [hj] at h; simp at h
      | some j =>
        rw [hj] at h
        obtain rfl : j + 1 = i := by simpa using h
        obtain ⟨rest, hr⟩ := findIacSe_spec (b :: t) j hj
        exact ⟨rest, by simpa using hr⟩

/-- A found `IAC SE` window ends inside the list. -/
theorem findIacSe_bound (l : List Nat) (i : Nat) (h : findIacSe l = some i) :
    i + 2 ≤ l.length := by
  obtain ⟨rest, hr⟩ := findIacSe_spec l i h
  have h1 : (l.drop i).length = l.length - i := List.length_drop _ _
  rw [hr] at h1
  simp at h1
  omega

end Mudcrab

namespace Mudcrab

/-- Combined specification of every `msg` result of `from_bytes`: the
encoding of the message is the consumed bytes up to a possible tail (the
`IAC IAC` escape), and the consumed length is positive and within the
buffer. -/
theorem from_bytes_msg_spec (src : List Nat) (m : TelnetMessage) (n : Nat)
    (h : TelnetMessage.from_bytes src = DecodeResult.msg m n) :
    (∃ tail, m.to_vec ++ tail = src.take n) ∧ 1 ≤ n ∧ n ≤ src.length := by
  rcases src with _ | ⟨b0, rest⟩
  · simp [TelnetMessage.from_bytes] at h
  by_cases h0 : b0 = codes.IAC
  · subst h0
    rcases rest with _ | ⟨b1, rest2⟩
    · simp [TelnetMessage.from_bytes] at h
    simp only [TelnetMessage.from_bytes, eq_self_iff_true, if_true] at h
    by_cases h1 : b1 = codes.IAC
    · rw [if_pos h1] at h
      subst h1
      obtain ⟨rfl, rfl⟩ := DecodeResult.msg.inj h.symm
      exact ⟨⟨[codes.IAC], rfl⟩, by omega, by simp⟩
    rw [if_neg h1] at h
    by_cases h2 : b1 = codes.WILL ∨ b1 = codes.WONT ∨ b1 = codes.DO ∨ b1 = codes.DONT
    · rw [if_pos h2] at h
      rcases rest2 with _ | ⟨b2, rest3⟩
      · simp at h
      · simp only [DecodeResult.msg.injEq] at h
        obtain ⟨rfl, rfl⟩ := h
        exact ⟨⟨[], rfl⟩, by omega, by simp⟩
    rw [if_neg h2] at h
    by_cases h3 : b1 = codes.SB
    · rw [if_pos h3] at h
      subst h3
      split at h
      · exact DecodeResult.noConfusion h
      rcases rest2 with _ | ⟨b2, rest3⟩
      · simp at h
      simp only [] at h
      split at h
      case _ ipos hfind =>
        by_cases h5 : ipos < 3
        · rw [if_pos h5] at h; exact DecodeResult.noConfusion h
        rw [if_neg h5] at h
        obtain ⟨rfl, rfl⟩ := DecodeResult.msg.inj h.symm
        have hbound := findIacSe_bound _ _ hfind
        obtain ⟨i3, rfl⟩ := Nat.exists_eq_add_of_le (Nat.le_of_not_lt h5)
        obtain ⟨rest', hdrop⟩ := findIacSe_spec _ _ hfind
        have hdrop3 : rest3.drop i3 = codes.IAC :: codes.SE :: rest' := by
          have e3 : 3 + i3 = i3 + 1 + 1 + 1 := by omega
          rw [e3] at hdrop
          simpa [List.drop_succ_cons] using hdrop
        refine ⟨⟨[], ?_⟩, by omega, hbound⟩
        have hn : 3 + i3 + 2 =
            ([codes.IAC, codes.SB, b2] : List Nat).length + (i3 + 2) := by
          simp only [List.length_cons, List.length_nil]
          omega
        have hsplit : (codes.IAC :: codes.SB :: b2 :: rest3).take (3 + i3 + 2) =
            [codes.IAC, codes.SB, b2] ++ rest3.take (i3 + 2) := by
          rw [hn]
          exact List.take_append ..
        rw [hsplit, List.take_add, hdrop3]
        have hi3 : 3 + i3 - 3 = i3 := by omega
        simp [TelnetMessage.to_vec, hi3]
      case _ hfind =>
        exact DecodeResult.noConfusion h
    rw [if_neg h3] at h
    obtain ⟨rfl, rfl⟩ := DecodeResult.msg.inj h.symm
    exact ⟨⟨[], rfl⟩, by omega, by simp⟩
  · simp only [TelnetMessage.from_bytes] at h
    rw [if_neg h0] at h
    split at h
    next ipos hfind =>
      obtain ⟨rfl, hn⟩ := DecodeResult.msg.inj h.symm
      have hlt := findByte_lt codes.IAC _ _ hfind
      have h1 : 1 ≤ ipos := by
        rw [findByte, if_neg h0] at hfind
        obtain ⟨j, hj, hj1⟩ : ∃ j, findByte codes.IAC rest = some j ∧ j + 1 = ipos := by
          simpa using hfind
        omega
      refine ⟨⟨[], ?_⟩, ?_, ?_⟩
      · rw [hn]; simp [TelnetMessage.to_vec]
      · omega
      · rw [hn]; exact Nat.le_of_lt hlt
    next hfind =>
      obtain ⟨rfl, rfl⟩ := DecodeResult.msg.inj h.symm
      exact ⟨⟨[], by simp [TelnetMessage.to_vec]⟩, by simp, by simp⟩

end Mudcrab

namespace Mudcrab

/-- Fuel irrelevance for the decode loop: any fuel at least the buffer
length gives the loop's fixed point, i.e. the `while let` loop of
`process_new_data` terminates within `buf.length` iterations. -/
theorem pnd_aux_stable : ∀ (fuel : Nat) (ctx : Ctx) (buf : List Nat),
    buf.length ≤ fuel → pnd_aux fuel ctx buf = pnd_aux buf.length ctx buf := by
  intro fuel
  induction fuel using Nat.strong_induction_on with
  | _ fuel ih =>
    intro ctx buf hle
    cases fuel with
    | zero =>
      have h0 : buf.length = 0 := Nat.le_zero.mp hle
      rw [h0]
    | succ f =>
      cases hfb : TelnetMessage.from_bytes buf with
      | fault =>
        rcases buf with _ | ⟨x, xs⟩
        · simp [TelnetMessage.from_bytes] at hfb
        · simp [pnd_aux, hfb]
      | incomplete =>
        rcases buf with _ | ⟨x, xs⟩
        · simp [pnd_aux, hfb]
        · simp [pnd_aux, hfb]
      | msg m n =>
        obtain ⟨-, hn1, hn2⟩ := from_bytes_msg_spec _ _ _ hfb
        rcases buf with _ | ⟨x, xs⟩
        · simp [TelnetMessage.from_bytes] at hfb
        simp only [pnd_aux, hfb, List.length_cons]
        cases hpm : process_message m ctx with
        | none => rfl
        | some ctx2 =>
          have hlen : ((x :: xs).drop n).length = xs.length + 1 - n := by
            simp [List.length_drop]
          have hlean : xs.length + 1 ≤ f + 1 := by simpa using hle
          have hn2' : n ≤ xs.length + 1 := by simpa using hn2
          have e1 := ih f (by omega) ctx2 ((x :: xs).drop n) (by omega)
          have e2 := ih xs.length (by omega) ctx2 ((x :: xs).drop n) (by omega)
          simp only [e1, e2]

end Mudcrab

namespace Mudcrab

/-- C1: the claim says three successive well-formed, pairwise-distinct MTTS
replies after `enable_remote(MTTS)` dispatch rounds 0, 1, 2 in order, empty
`handshakes_left.mtts`, and send a SEND after the first two replies. The
code instead binds all three round guards `hs1`, `hs2`, `hs3` to 0, so only
round 0 ever dispatches: after the reply `MUDLET` the set is `{1, 2}` and
12 bytes (two SENDs) have been written; the replies `XTERM` and `MTTS 15`
dispatch nothing — the set stays `{1, 2}`, round 2's bitmask flags (utf8,
vt100) stay false, and no further byte is written. -/
theorem c1_mtts_rounds_stall :
    mttsCtx0.proto.handshakes_left.mtts = [2, 1, 0] ∧
    mttsRun1.map (fun c => (c.proto.handshakes_left.mtts, c.caps.client_name,
      c.written.length)) = some ([2, 1], str "MUDLET", 12) ∧
    mttsRun3.map (fun c => (c.proto.handshakes_left.mtts, c.caps.utf8,
      c.caps.vt100, c.written.length)) = some ([2, 1], false, false, 12) := by
  decide

/-- C2: the claim says `start` writes `IAC WILL/DO op` for each
`start_local`/`start_remote` option and sets the corresponding
`negotiating` flags. The code writes the bytes (here in the policy table's
order; the source iterates a `HashMap`) but performs no write to
`op_state`, so every `negotiating` flag is still false — contradicting the
claim and the source's own comment on the flag. -/
theorem c2_start_emits_bytes_but_never_sets_negotiating :
    (TelnetProtocol.start (TelnetProtocol.new defaultTelnetOptions)).2 =
      [255, 251, 3, 255, 253, 31, 255, 253, 24, 255, 251, 70, 255, 251, 201,
       255, 251, 69, 255, 253, 34, 255, 251, 25] ∧
    (TelnetProtocol.start (TelnetProtocol.new defaultTelnetOptions)).1.op_state =
      (TelnetProtocol.new defaultTelnetOptions).op_state ∧
    (lookupA (TelnetProtocol.start (TelnetProtocol.new defaultTelnetOptions)).1.op_state
      codes.SGA).map (fun st => st.loc.negotiating) = some false ∧
    (lookupA (TelnetProtocol.start (TelnetProtocol.new defaultTelnetOptions)).1.op_state
      codes.NAWS).map (fun st => st.remote.negotiating) = some false := by
  decide

/-- C3: the claim (and the spec) say a buffer holding the single byte IAC
decodes to `None` without touching a second byte. The code indexes `src[1]`
with no length check, an out-of-bounds panic, modelled as `fault`. -/
theorem c3_decode_single_iac_faults :
    TelnetMessage.from_bytes [codes.IAC] = DecodeResult.fault ∧
    TelnetMessage.from_bytes [codes.IAC] ≠ DecodeResult.incomplete := by
  decide

/-- C4 counterexample: feeding `'A' IAC IAC 'B' LF` through the decode path
does not enqueue the Line "AÿB" claimed by the spec's scenario. -/
theorem c4_iac_escape_counterexample :
    ¬ ((process_new_data freshCtx c4Input).map (fun r => r.1.events) =
        some [TelnetEvent.Line (str "AÿB")]) := by
  decide

/-- C4 amended: the 0xFF literal does survive into the line buffer (after
`'A' IAC IAC 'B'` the app buffer is `[0x41, 0xFF, 0x42]`), but on LF the
assembled line is not valid UTF-8, so `receive_data` drops it: no Line
event is enqueued and the buffer is drained. -/
theorem c4_iac_escape_line_dropped :
    (process_new_data freshCtx [65, 255, 255, 66]).map
      (fun r => r.1.proto.app_buffer) = some [65, 255, 66] ∧
    (process_new_data freshCtx c4Input).map
      (fun r => (r.1.events, r.1.proto.app_buffer, r.2)) = some ([], [], []) := by
  decide

/-- C5: the claim says a socket accepted from a TLS listener gets the TLS
transport variant. The accept stage passes `None` as the TLS configuration
in both arms of its `match` on the listener's kind, so the connection holds
the plain TCP transport. -/
theorem c5_tls_listener_yields_tcp_transport :
    (acceptConn ConnType.TLS Protocol.Telnet 1).transport = TransportTag.TCP ∧
    (acceptConn ConnType.TLS Protocol.Telnet 1).transport.is_tls = false := by
  decide

/-- C6: the claim says a round-0 reply containing a space splits into
client name and version. The code calls `splitn(1, " ")`, which yields the
whole text as a single piece, and then indexes `results[1]`: an
out-of-bounds panic (`none`). A reply without a space does set the whole
text as `client_name`, leaving `client_version` unchanged. -/
theorem c6_mtts_round0_space_faults :
    receive_mtts_0 (str "MUDLET 4.0") freshCtx = none ∧
    (receive_mtts_0 (str "MUDLET") freshCtx).map
      (fun c => (c.caps.client_name, c.caps.client_version)) =
      some (str "MUDLET", str "UNKNOWN") := by
  decide

/-- C7: every message produced by `from_bytes` encodes (via `to_vec`) to a
list of which the consumed input bytes are an extension: `to_vec m ++ tail`
equals the consumed bytes `src.take n` for some `tail` (empty except for
the `IAC IAC` escape, where `tail = [IAC]`). -/
theorem c7_encode_matches_consumed (src : List Nat) (m : TelnetMessage) (n : Nat)
    (h : TelnetMessage.from_bytes src = DecodeResult.msg m n) :
    ∃ tail, m.to_vec ++ tail = src.take n :=
  (from_bytes_msg_spec src m n h).1

/-- Witness for C7 at the `IAC IAC` escape input. -/
theorem c7_encode_matches_consumed_witness :
    ∃ tail, (TelnetMessage.Data [codes.IAC]).to_vec ++ tail =
      ([255, 255, 66] : List Nat).take 2 :=
  c7_encode_matches_consumed [255, 255, 66] (TelnetMessage.Data [codes.IAC]) 2
    (by decide)

/-- C8: for a connection still `Negotiating`, the health check transitions
to `Active` and enqueues the welcome prompt as soon as `handshakes_left` is
empty, and in any case forces `Active` once more than 300 ms have elapsed
since creation, even with handshakes outstanding. (`health_check` is
modelled from the spec; its body is not among the provided sources.) -/
theorem c8_health_check_drives_active (now created : Nat) (hs : TelnetHandshakes)
    (out : List ProtocolOutEvent) (w : List Nat) :
    (hs.is_empty = true →
      health_check now created hs ProtocolStatus.Negotiating out w =
        (ProtocolStatus.Active, out ++ [ProtocolOutEvent.Prompt w])) ∧
    (300 < now - created →
      (health_check now created hs ProtocolStatus.Negotiating out w).1 =
        ProtocolStatus.Active) := by
  refine ⟨fun he => ?_, fun ht => ?_⟩
  · simp [health_check, he]
  · by_cases he : hs.is_empty = true
    · simp [health_check, he]
    · rw [Bool.not_eq_true] at he
      simp [health_check, he, ht]

/-- Witness for C8: an empty handshake record goes `Active` with the
prompt; a stalled one is forced `Active` at 301 ms. -/
theorem c8_health_check_drives_active_witness :
    health_check 0 0 {} ProtocolStatus.Negotiating [] [] =
      (ProtocolStatus.Active, [ProtocolOutEvent.Prompt []]) ∧
    (health_check 301 0 c8StallHs ProtocolStatus.Negotiating [] []).1 =
      ProtocolStatus.Active :=
  ⟨by
    have h := (c8_health_check_drives_active 0 0 {} [] []).1 (by decide)
    simpa using h,
   (c8_health_check_drives_active 301 0 c8StallHs [] []).2 (by decide)⟩

/-- C9: every decoded message consumes between 1 and `buf.length` bytes, so
the `process_new_data` loop strictly shrinks the buffer and terminates:
`buf.length` iterations already reach the loop's fixed point (any larger
fuel gives the same result as `process_new_data`). -/
theorem c9_decode_progress_and_loop_termination :
    (∀ (src : List Nat) (m : TelnetMessage) (n : Nat),
        TelnetMessage.from_bytes src = DecodeResult.msg m n →
        1 ≤ n ∧ n ≤ src.length) ∧
    (∀ (fuel : Nat) (ctx : Ctx) (buf : List Nat), buf.length ≤ fuel →
        pnd_aux fuel ctx buf = process_new_data ctx buf) :=
  ⟨fun src m n h => (from_bytes_msg_spec src m n h).2,
   fun fuel ctx buf h => pnd_aux_stable fuel ctx buf h⟩

/-- Witness for C9 at a one-byte data buffer and a two-byte line buffer. -/
theorem c9_decode_progress_witness :
    (1 ≤ 1 ∧ 1 ≤ ([65] : List Nat).length) ∧
    pnd_aux 9 freshCtx [65, 10] = process_new_data freshCtx [65, 10] :=
  ⟨c9_decode_progress_and_loop_termination.1 [65] (TelnetMessage.Data [65]) 1
    (by decide),
   c9_decode_progress_and_loop_termination.2 9 freshCtx [65, 10] (by decide)⟩

/-- C10: a sub-negotiation for an option present in the policy/state table
is processed regardless of the option's negotiated state: a NAWS payload of
at least 4 bytes always updates width and height with the two big-endian
u16s, whatever the per-option state `st` holds. -/
theorem c10_naws_sub_ignores_negotiation (ctx : Ctx) (st : TelnetOptionState)
    (data : List Nat) (hst : lookupA ctx.proto.op_state codes.NAWS = some st)
    (hlen : 4 ≤ data.length) :
    receive_sub codes.NAWS data ctx =
      some { ctx with caps := { ctx.caps with
        width := 256 * data.getD 0 0 + data.getD 1 0,
        height := 256 * data.getD 2 0 + data.getD 3 0 } } := by
  rcases data with _ | ⟨a, data1⟩
  · simp at hlen
  rcases data1 with _ | ⟨b, data2⟩
  · simp at hlen
  rcases data2 with _ | ⟨c, data3⟩
  · simp at hlen
  rcases data3 with _ | ⟨d, data4⟩
  · simp at hlen
  unfold receive_sub
  rw [hst]
  simp [receive_naws, getU16, List.getD]

/-- Witness for C10: a fresh FSM (NAWS never negotiated) still takes the
80×24 window size from a NAWS sub-negotiation. -/
theorem c10_naws_sub_ignores_negotiation_witness :
    receive_sub codes.NAWS [0, 80, 0, 24] freshCtx =
      some { freshCtx with caps := { freshCtx.caps with width := 80, height := 24 } } :=
  (c10_naws_sub_ignores_negotiation freshCtx {} [0, 80, 0, 24] (by decide)
    (by decide)).trans (by decide)

end Mudcrab
